import Mathlib

/-!
Verification development for the WhatsApp agent bridge (`src/api.py`,
`src/core/agent.py`).  The program state (per-user conversation store, busy
flags, wait-message indices) is embedded shallowly: Python dicts become
association lists keyed by the user id (a `String`), the OpenAI completion
client becomes an oracle sequence of completion results, and tool callables
become oracle functions supplied through a `ToolEnv`.  Exceptions are
modelled with explicit error values (`PyError`, `RunError`).
-/

set_option autoImplicit false

/-! ### Association-list model of Python dicts -/

/-- Dict read with default: `d.get(k, default)` / the `if k in d` + index idiom. -/
def agetD {α : Type} (m : List (String × α)) (k : String) (d : α) : α :=
  match m.find? (fun p => p.1 == k) with
  | some p => p.2
  | none => d

/-- Dict read returning `none` when the key is absent. -/
def alookup {α : Type} (m : List (String × α)) (k : String) : Option α :=
  match m.find? (fun p => p.1 == k) with
  | some p => some p.2
  | none => none

/-- Membership test: `k in d`. -/
def amem {α : Type} (m : List (String × α)) (k : String) : Bool :=
  (m.find? (fun p => p.1 == k)).isSome

/-- Dict write `d[k] = v`: replaces the first binding of `k`, else appends. -/
def aset {α : Type} (m : List (String × α)) (k : String) (v : α) : List (String × α) :=
  match m with
  | [] => [(k, v)]
  | p :: rest => if p.1 == k then (k, v) :: rest else p :: aset rest k v

/-- Dict delete `del d[k]` (a no-op when the key is absent, matching the
guarded deletes in `ChatMemory.delete_chat`). -/
def adel {α : Type} (m : List (String × α)) (k : String) : List (String × α) :=
  m.filter (fun p => !(p.1 == k))

/-! ### Message data model

`core/enumerations.py` is not present under `src/`. -/

/-- Modelled from the spec: the closed role/item-type enumeration
(`MessageType` in the absent `core/enumerations.py`).  The spec fixes the
roles Developer, User and Assistant; the orchestration loop additionally
uses the `function_call` and `custom_tool_call` members through
`MessageType.FUNCTION_CALL.value` and `MessageType.CUSTOM_TOOL_CALL.value`. -/
inductive MessageType where
  | developer
  | user
  | assistant
  | function_call
  | custom_tool_call
deriving DecidableEq, Repr

def MessageType.value : MessageType → String
  | .developer => "developer"
  | .user => "user"
  | .assistant => "assistant"
  | .function_call => "function_call"
  | .custom_tool_call => "custom_tool_call"

/-- Modelled from the spec: `MessageType.list_values()`. -/
def MessageType.list_values : List String :=
  ["developer", "user", "assistant", "function_call", "custom_tool_call"]

/-- Modelled from the spec: `MessageType.has_value(role)` — membership of the
raw string in the closed enumeration. -/
def MessageType.has_value (role : String) : Bool :=
  decide (role ∈ MessageType.list_values)

/-- One entry of a message item's `content` list (`item.content[0].text`). -/
structure ContentPart where
  text : String
deriving DecidableEq, Repr

/-- A completion output item (one element of `ai_output.output`).  Items are
duck-typed in the source and distinguished only by their `type` tag
(`"message"`, `"reasoning"`, `"function_call"`, `"custom_tool_call"`);
the remaining fields are read only when the tag warrants it. -/
structure OutputItem where
  type : String
  content : List ContentPart := []
  name : String := ""
  arguments : String := ""
  call_id : String := ""
  input : String := ""
deriving DecidableEq, Repr

/-- The raw result of one completion-client call; `output` is
`ai_output.output`. -/
structure CompletionResult where
  output : List OutputItem
deriving DecidableEq, Repr

/-- One element of a stored conversation.  The Python history lists are
heterogeneous: plain `(role, content)` dicts, raw completion output items
(appended whole by `_set_ai_output`), and `function_call_output` dicts
(appended by `_set_tool_output`).  Python `==` between these three shapes is
never true, which the inductive constructors capture. -/
inductive Msg where
  | chat (role : String) (content : String)
  | item (it : OutputItem)
  | toolOut (call_id : String) (output : String)
deriving DecidableEq, Repr

/-- Python-level failures that the embedded code raises or catches.
`setMessagesError` is the source's `SetMessagesError`; `roleLookupError`
stands for the `KeyError`/`TypeError` raised by `msg["role"]` on a message
that is not a role-keyed dict; `registryKeyError` is the `KeyError` from
`rag_functions[name]`; `jsonDecodeError` is a `json.loads` failure. -/
inductive PyError where
  | setMessagesError (role : String)
  | roleLookupError
  | registryKeyError (name : String)
  | jsonDecodeError (s : String)
deriving DecidableEq, Repr

/-! ### ChatMemory (`src/core/agent.py`, class `ChatMemory`) -/

/-- The three per-user dicts of `ChatMemory` plus the system prompt text.
`ai_output` holds the most recent raw completion result per user,
`messages` the persisted history, `tool_msgs` the ephemeral tool buffer. -/
structure ChatMemory where
  ai_output : List (String × CompletionResult) := []
  messages : List (String × List Msg) := []
  tool_msgs : List (String × List Msg) := []
  prompt : String := ""
deriving DecidableEq, Repr

/-- `self.init_msg`: the Developer system-prompt message. -/
def ChatMemory.init_msg (cm : ChatMemory) : Msg :=
  Msg.chat (MessageType.developer.value) cm.prompt

/-- `get_ai_output`: output items of the stored raw result, `[]` if absent. -/
def ChatMemory.get_ai_output (cm : ChatMemory) (user_id : String) : List OutputItem :=
  match alookup cm.ai_output user_id with
  | none => []
  | some r => r.output

/-- `get_tool_msgs`: the ephemeral tool buffer, `[]` if absent. -/
def ChatMemory.get_tool_msgs (cm : ChatMemory) (user_id : String) : List Msg :=
  agetD cm.tool_msgs user_id []

/-- The `msg["role"]` check performed per message by `set_messages`:
a role-keyed dict is validated against the enumeration, the other message
shapes raise a lookup failure (`KeyError`/`TypeError`) before any
`SetMessagesError` can be built. -/
def Msg.roleError : Msg → Option PyError
  | .chat role _ => if MessageType.has_value role then none else some (.setMessagesError role)
  | .item _ => some .roleLookupError
  | .toolOut _ _ => some .roleLookupError

/-- First validation failure of `set_messages`, scanning in list order. -/
def firstRoleError (messages : List Msg) : Option PyError :=
  messages.findSome? Msg.roleError

/-- `set_messages`: validates every message's role, then replaces the stored
sequence wholesale.  A validation failure raises and leaves the store
untouched. -/
def ChatMemory.set_messages (cm : ChatMemory) (messages : List Msg) (user_id : String) :
    Except PyError ChatMemory :=
  match firstRoleError messages with
  | some e => Except.error e
  | none => Except.ok { cm with messages := aset cm.messages user_id messages }

/-- `init_chat`: seeds the conversation with the system prompt via
`set_messages`.  The error branch is unreachable because `init_msg` carries
the valid role `developer`. -/
def ChatMemory.init_chat (cm : ChatMemory) (user_id : String) : ChatMemory :=
  match cm.set_messages [cm.init_msg] user_id with
  | Except.ok cm2 => cm2
  | Except.error _ => cm

/-- `get_messages`: returns the conversation, lazily initializing it when the
user is absent; the second component is the (possibly initialized) store. -/
def ChatMemory.get_messages (cm : ChatMemory) (user_id : String)
    (with_prompt : Bool := true) : List Msg × ChatMemory :=
  let cm := if amem cm.messages user_id then cm else cm.init_chat user_id
  let msgs := agetD cm.messages user_id []
  (if with_prompt then msgs else msgs.tail, cm)

/-- Observation helper: the history as read through `get_messages` (4.1's
`get`), discarding the lazily-initialized store. -/
def ChatMemory.view_messages (cm : ChatMemory) (user_id : String) : List Msg :=
  (cm.get_messages user_id).1

/-- `add_msg`: auto-initializes the conversation when absent, then appends a
`(role, content)` message when the role belongs to the enumeration; an
unknown role is rejected (`False`) and nothing is appended. -/
def ChatMemory.add_msg (cm : ChatMemory) (message : String) (role : String)
    (user_id : String) : Bool × ChatMemory :=
  let cm := if amem cm.messages user_id then cm else cm.init_chat user_id
  if MessageType.has_value role then
    (true,
      { cm with
          messages :=
            aset cm.messages user_id (agetD cm.messages user_id [] ++ [Msg.chat role message]) })
  else
    (false, cm)

/-- `has_chat`. -/
def ChatMemory.has_chat (cm : ChatMemory) (user_id : String) : Bool :=
  amem cm.messages user_id && !(agetD cm.messages user_id []).isEmpty

/-- `delete_chat`: removes history, tool buffer and last raw result. -/
def ChatMemory.delete_chat (cm : ChatMemory) (user_id : String) : ChatMemory :=
  { cm with
      messages := adel cm.messages user_id,
      tool_msgs := adel cm.tool_msgs user_id,
      ai_output := adel cm.ai_output user_id }

/-- `_set_ai_output`: stores the raw result first; then, only when the user
already has a history, appends every output item to both the tool buffer and
the persisted history (when the user is absent it returns `False` after the
raw store). -/
def ChatMemory._set_ai_output (cm : ChatMemory) (ai_output : CompletionResult)
    (user_id : String) : ChatMemory :=
  let cm := { cm with ai_output := aset cm.ai_output user_id ai_output }
  if amem cm.messages user_id then
    let items := ai_output.output.map Msg.item
    let cm := { cm with
        tool_msgs :=
          aset cm.tool_msgs user_id (agetD cm.tool_msgs user_id [] ++ items) }
    { cm with
        messages :=
          aset cm.messages user_id (agetD cm.messages user_id [] ++ items) }
  else
    cm

/-- `_clean_tool_msgs`: unconditionally assigns an empty buffer. -/
def ChatMemory._clean_tool_msgs (cm : ChatMemory) (user_id : String) : ChatMemory :=
  { cm with tool_msgs := aset cm.tool_msgs user_id [] }

/-- The scan of `_get_ai_msg` over the last completion's output: the text of
the first `"message"` item (an empty `content` raises `IndexError`, which is
caught per item and the scan continues); the fixed fallback is returned when
no item yields a text. -/
def firstMessageText : List OutputItem → String
  | [] => "No Answer"
  | item :: rest =>
    if item.type == "message" then
      match item.content with
      | [] => firstMessageText rest
      | part :: _ => part.text
    else
      firstMessageText rest

/-- `_get_ai_msg`. -/
def ChatMemory._get_ai_msg (cm : ChatMemory) (user_id : String) : String :=
  firstMessageText (cm.get_ai_output user_id)

/-- `_set_tool_output`: records a Tool Result as a `function_call_output`
message in both the tool buffer and the history (a user without a history is
rejected before anything is recorded). -/
def ChatMemory._set_tool_output (cm : ChatMemory) (call_id : String)
    (function_out : String) (user_id : String) : ChatMemory :=
  if amem cm.messages user_id then
    let msg := Msg.toolOut call_id function_out
    let cm := { cm with
        tool_msgs :=
          aset cm.tool_msgs user_id (agetD cm.tool_msgs user_id [] ++ [msg]) }
    { cm with
        messages :=
          aset cm.messages user_id (agetD cm.messages user_id [] ++ [msg]) }
  else
    cm

/-- `_purge_tool_msgs`: when the buffer is non-empty, filters out of the
history every message equal to some buffered message and replaces the history
through `set_messages`.  A `SetMessagesError` is caught; any other failure
propagates; the `finally` block clears the buffer in every branch. -/
def ChatMemory._purge_tool_msgs (cm : ChatMemory) (user_id : String) :
    Option PyError × ChatMemory :=
  let tool_msgs := cm.get_tool_msgs user_id
  let gm := cm.get_messages user_id
  let messages := gm.1
  let cm := gm.2
  if tool_msgs.isEmpty then
    (none, cm)
  else
    let clean_messages := messages.filter (fun m => decide (m ∉ tool_msgs))
    match cm.set_messages clean_messages user_id with
    | Except.ok cm2 => (none, cm2._clean_tool_msgs user_id)
    | Except.error (PyError.setMessagesError _) => (none, cm._clean_tool_msgs user_id)
    | Except.error e => (some e, cm._clean_tool_msgs user_id)

/-! ### Tool Dispatcher (`src/core/agent.py`, class `ToolRunner`)

The tool callables live outside the core (JSON-file registry tools, network
calls); they are abstracted as a `ToolEnv` oracle: `registry` is the key set
of the injected `rag_functions` mapping, `parse_args` the outcome of
`json.loads` on a request's raw arguments, and `call_function` /
`call_custom` the outcome of invoking the looked-up callable (an `error`
value is an exception raised by the callable). -/

structure ToolEnv where
  registry : List String
  parse_args : String → Except String Unit
  call_function : String → String → String → Except String String
  call_custom : String → String → Except String String

structure ToolRunner where
  ERROR_MSG : String := "Ha ocurrido un error inesperado"
deriving DecidableEq, Repr

/-- The submission loop of `_run_functions`: for each request, in order,
look the name up in the registry (`KeyError` on a miss), decode the raw
arguments (`json.loads`), inject the user id and submit the call.  Failures
of the callable itself are captured inside the returned future; lookup and
decode failures raise immediately. -/
def ToolEnv.submit_functions (env : ToolEnv) (functions_called : List OutputItem)
    (user_id : String) : Except PyError (List (Except String String)) :=
  match functions_called with
  | [] => Except.ok []
  | tool :: rest =>
    if tool.name ∈ env.registry then
      match env.parse_args tool.arguments with
      | Except.error s => Except.error (PyError.jsonDecodeError s)
      | Except.ok _ =>
        match env.submit_functions rest user_id with
        | Except.error e => Except.error e
        | Except.ok futures =>
          Except.ok (env.call_function tool.name tool.arguments user_id :: futures)
    else
      Except.error (PyError.registryKeyError tool.name)

/-- The submission loop of `_run_custom_tools`: registry lookup, then the raw
input is passed through as the single `tool_input` parameter (no decoding,
no user-id injection). -/
def ToolEnv.submit_custom (env : ToolEnv) (custom_tools_called : List OutputItem) :
    Except PyError (List (Except String String)) :=
  match custom_tools_called with
  | [] => Except.ok []
  | tool :: rest =>
    if tool.name ∈ env.registry then
      match env.submit_custom rest with
      | Except.error e => Except.error e
      | Except.ok results =>
        Except.ok (env.call_custom tool.name tool.input :: results)
    else
      Except.error (PyError.registryKeyError tool.name)

/-- The task-building loop of `_async_run_functions`; it performs the same
lookup, decode and argument injection as the synchronous submission loop. -/
def ToolEnv.async_submit_functions (env : ToolEnv) (functions_called : List OutputItem)
    (user_id : String) : Except PyError (List (Except String String)) :=
  match functions_called with
  | [] => Except.ok []
  | tool :: rest =>
    if tool.name ∈ env.registry then
      match env.parse_args tool.arguments with
      | Except.error s => Except.error (PyError.jsonDecodeError s)
      | Except.ok _ =>
        match env.async_submit_functions rest user_id with
        | Except.error e => Except.error e
        | Except.ok tasks =>
          Except.ok (env.call_function tool.name tool.arguments user_id :: tasks)
    else
      Except.error (PyError.registryKeyError tool.name)

/-- The task-building loop of `_async_run_custom_tools`. -/
def ToolEnv.async_submit_custom (env : ToolEnv) (custom_tools_called : List OutputItem) :
    Except PyError (List (Except String String)) :=
  match custom_tools_called with
  | [] => Except.ok []
  | tool :: rest =>
    if tool.name ∈ env.registry then
      match env.async_submit_custom rest with
      | Except.error e => Except.error e
      | Except.ok tasks =>
        Except.ok (env.call_custom tool.name tool.input :: tasks)
    else
      Except.error (PyError.registryKeyError tool.name)

/-- `run_futures`: walks `zip(futures, tools_called)`; a future that raised
has its output replaced by the fixed generic error string; every pair is
recorded through `_set_tool_output` under the request's own `call_id`. -/
def ToolRunner.run_futures (tr : ToolRunner) :
    List (Except String String) → List OutputItem → String → ChatMemory → ChatMemory
  | future :: futures, tool :: tools_called, user_id, chat_memory =>
    let function_out :=
      match future with
      | Except.ok s => s
      | Except.error _ => tr.ERROR_MSG
    tr.run_futures futures tools_called user_id
      (chat_memory._set_tool_output tool.call_id function_out user_id)
  | _, _, _, chat_memory => chat_memory

/-- `run_coroutines`: walks `zip(tools_called, results)` where `results` came
from `asyncio.gather(..., return_exceptions=True)`; an exception value is
replaced by the fixed generic error string; every pair is recorded through
`_set_tool_output` under the request's own `call_id`. -/
def ToolRunner.run_coroutines (tr : ToolRunner) :
    List OutputItem → List (Except String String) → String → ChatMemory → ChatMemory
  | tool :: tools_called, function_out? :: results, user_id, chat_memory =>
    let function_out :=
      match function_out? with
      | Except.ok s => s
      | Except.error _ => tr.ERROR_MSG
    tr.run_coroutines tools_called results user_id
      (chat_memory._set_tool_output tool.call_id function_out user_id)
  | _, _, _, chat_memory => chat_memory

/-- `_run_functions`: submit every request, then record the results.  An
error escaping the submission loop propagates before any result is
recorded. -/
def ToolRunner._run_functions (tr : ToolRunner) (env : ToolEnv)
    (functions_called : List OutputItem) (user_id : String)
    (chat_memory : ChatMemory) : Option PyError × ChatMemory :=
  match env.submit_functions functions_called user_id with
  | Except.error e => (some e, chat_memory)
  | Except.ok futures => (none, tr.run_futures futures functions_called user_id chat_memory)

/-- `_run_custom_tools`. -/
def ToolRunner._run_custom_tools (tr : ToolRunner) (env : ToolEnv)
    (custom_tools_called : List OutputItem) (user_id : String)
    (chat_memory : ChatMemory) : Option PyError × ChatMemory :=
  match env.submit_custom custom_tools_called with
  | Except.error e => (some e, chat_memory)
  | Except.ok futures => (none, tr.run_futures futures custom_tools_called user_id chat_memory)

/-- `_async_run_functions`: build every task, then gather and record. -/
def ToolRunner._async_run_functions (tr : ToolRunner) (env : ToolEnv)
    (functions_called : List OutputItem) (user_id : String)
    (chat_memory : ChatMemory) : Option PyError × ChatMemory :=
  match env.async_submit_functions functions_called user_id with
  | Except.error e => (some e, chat_memory)
  | Except.ok results => (none, tr.run_coroutines functions_called results user_id chat_memory)

/-- `_async_run_custom_tools`. -/
def ToolRunner._async_run_custom_tools (tr : ToolRunner) (env : ToolEnv)
    (custom_tools_called : List OutputItem) (user_id : String)
    (chat_memory : ChatMemory) : Option PyError × ChatMemory :=
  match env.async_submit_custom custom_tools_called with
  | Except.error e => (some e, chat_memory)
  | Except.ok results => (none, tr.run_coroutines custom_tools_called results user_id chat_memory)

/-! ### Orchestration loop (`Agent.process_msg` / `Agent.async_process_msg`)

The completion client is external; one run consumes an oracle list of
completion outcomes, one per round (an `error` element is an exception
raised by the client).  The optional `tool_execution_callback` only forwards
reasoning text to an external sink and never touches the store, so it is not
modelled. -/

/-- Equality of embedded outcomes is decidable, so runs can be compared on
concrete inputs. -/
instance exceptDecEq {ε α : Type} [DecidableEq ε] [DecidableEq α] :
    DecidableEq (Except ε α) := fun a b =>
  match a, b with
  | Except.error e, Except.error f =>
    decidable_of_iff (e = f) ⟨fun h => by rw [h], fun h => by injection h⟩
  | Except.error _, Except.ok _ => isFalse (fun h => Except.noConfusion h)
  | Except.ok _, Except.error _ => isFalse (fun h => Except.noConfusion h)
  | Except.ok x, Except.ok y =>
    decidable_of_iff (x = y) ⟨fun h => by rw [h], fun h => by injection h⟩

/-- A failure escaping one orchestration run. -/
inductive RunError where
  | completionError (exc : String)
  | pyError (e : PyError)
  | oracleExhausted
deriving DecidableEq, Repr

/-- Result of one orchestration run: the returned reply (or the escaping
exception), the final store, and how many completion-client invocations the
run made. -/
structure RunOut where
  res : Except RunError String
  cm : ChatMemory
  calls : Nat
deriving DecidableEq, Repr

/-- The code after the loop breaks in `process_msg`: purge the tool buffer,
extract the final answer from the last stored completion, append it as an
Assistant message and return it. -/
def Agent.finish_run (user_id : String) (cm : ChatMemory) (calls : Nat) : RunOut :=
  match cm._purge_tool_msgs user_id with
  | (some e, cm2) => ⟨Except.error (RunError.pyError e), cm2, calls⟩
  | (none, cm2) =>
    let ai_msg := cm2._get_ai_msg user_id
    ⟨Except.ok ai_msg, (cm2.add_msg ai_msg MessageType.assistant.value user_id).2, calls⟩

/-- The code after the loop breaks in `async_process_msg` (textually the same
lines as in the synchronous method). -/
def Agent.async_finish_run (user_id : String) (cm : ChatMemory) (calls : Nat) : RunOut :=
  match cm._purge_tool_msgs user_id with
  | (some e, cm2) => ⟨Except.error (RunError.pyError e), cm2, calls⟩
  | (none, cm2) =>
    let ai_msg := cm2._get_ai_msg user_id
    ⟨Except.ok ai_msg, (cm2.add_msg ai_msg MessageType.assistant.value user_id).2, calls⟩

/-- The `while True` loop of `process_msg`: invoke the client, record the
result, partition the output into function calls and custom tool calls,
break when both lists are empty, otherwise dispatch each non-empty list and
loop. -/
def Agent.run_rounds (tr : ToolRunner) (env : ToolEnv) (user_id : String) :
    List (Except String CompletionResult) → ChatMemory → Nat → RunOut
  | [], cm, calls => ⟨Except.error RunError.oracleExhausted, cm, calls⟩
  | Except.error exc :: _, cm, calls =>
    ⟨Except.error (RunError.completionError exc), cm, calls + 1⟩
  | Except.ok ai_output :: rest, cm, calls =>
    let cm := cm._set_ai_output ai_output user_id
    let functions_called :=
      ai_output.output.filter (fun item => item.type == MessageType.function_call.value)
    let custom_tools_called :=
      ai_output.output.filter (fun item => item.type == MessageType.custom_tool_call.value)
    if functions_called.isEmpty && custom_tools_called.isEmpty then
      Agent.finish_run user_id cm (calls + 1)
    else
      match (if functions_called.isEmpty then (none, cm)
             else tr._run_functions env functions_called user_id cm) with
      | (some e, cm) => ⟨Except.error (RunError.pyError e), cm, calls + 1⟩
      | (none, cm) =>
        match (if custom_tools_called.isEmpty then (none, cm)
               else tr._run_custom_tools env custom_tools_called user_id cm) with
        | (some e, cm) => ⟨Except.error (RunError.pyError e), cm, calls + 1⟩
        | (none, cm) => Agent.run_rounds tr env user_id rest cm (calls + 1)

/-- The `while True` loop of `async_process_msg`, dispatching through the
asynchronous tool runners. -/
def Agent.async_run_rounds (tr : ToolRunner) (env : ToolEnv) (user_id : String) :
    List (Except String CompletionResult) → ChatMemory → Nat → RunOut
  | [], cm, calls => ⟨Except.error RunError.oracleExhausted, cm, calls⟩
  | Except.error exc :: _, cm, calls =>
    ⟨Except.error (RunError.completionError exc), cm, calls + 1⟩
  | Except.ok ai_output :: rest, cm, calls =>
    let cm := cm._set_ai_output ai_output user_id
    let functions_called :=
      ai_output.output.filter (fun item => item.type == MessageType.function_call.value)
    let custom_tools_called :=
      ai_output.output.filter (fun item => item.type == MessageType.custom_tool_call.value)
    if functions_called.isEmpty && custom_tools_called.isEmpty then
      Agent.async_finish_run user_id cm (calls + 1)
    else
      match (if functions_called.isEmpty then (none, cm)
             else tr._async_run_functions env functions_called user_id cm) with
      | (some e, cm) => ⟨Except.error (RunError.pyError e), cm, calls + 1⟩
      | (none, cm) =>
        match (if custom_tools_called.isEmpty then (none, cm)
               else tr._async_run_custom_tools env custom_tools_called user_id cm) with
        | (some e, cm) => ⟨Except.error (RunError.pyError e), cm, calls + 1⟩
        | (none, cm) => Agent.async_run_rounds tr env user_id rest cm (calls + 1)

/-- `Agent.process_msg`: append the User turn, then run rounds until the
model stops requesting tools. -/
def Agent.process_msg (tr : ToolRunner) (env : ToolEnv)
    (completions : List (Except String CompletionResult))
    (message : String) (user_id : String) (cm : ChatMemory) : RunOut :=
  Agent.run_rounds tr env user_id completions
    (cm.add_msg message MessageType.user.value user_id).2 0

/-- `Agent.async_process_msg`: the cooperative non-blocking path. -/
def Agent.async_process_msg (tr : ToolRunner) (env : ToolEnv)
    (completions : List (Except String CompletionResult))
    (message : String) (user_id : String) (cm : ChatMemory) : RunOut :=
  Agent.async_run_rounds tr env user_id completions
    (cm.add_msg message MessageType.user.value user_id).2 0

/-! ### API layer (`src/api.py`)

The webhook transport, `message_id` mark-as-read call and timing metrics are
external plumbing; the embedding starts from the extracted
`(user_number, incoming_msg)` pair.  Outbound sends through
`core.notifications` (absent from `src/`, an external collaborator per the
spec) are recorded as `(body, to)` pairs in task-creation order. -/

/-- The module-level mutable state of `src/api.py` that the claims touch:
the agent's conversation store plus the `users_in_process` and
`wait_msg_index` dicts; `notifications` logs the fire-and-forget sends. -/
structure ApiState where
  chat_memory : ChatMemory := {}
  users_in_process : List (String × Bool) := []
  wait_msg_index : List (String × Nat) := []
  notifications : List (String × String) := []
deriving DecidableEq, Repr

/-- The fixed apology/reset text sent when AI generation fails. -/
def RESET_MSG : String :=
  "Ha ocurrido un error y el chat fue reiniciado. Por favor, comencemos de nuevo"

/-- The fixed rotating wait-notice templates of `check_user_availability`. -/
def wait_messages : List String :=
  ["Porfa dame un segundo para terminar de elaborar la respuesta 🕒",
   "Un momento, estoy procesando tu pedido — te respondo enseguida ⏳",
   "Disculpa la demora, estoy trabajando para darte la mejor respuesta 🤏",
   "Estoy revisando la información; te escribo en breve 📡",
   "Gracias por la paciencia — preparando tu respuesta ahora mismo 🔄"]

/-- `check_user_availability`: a busy user gets the wait template at the
current per-user index (mod the template count), the index advances by one
(wrapping), and `False` is returned; an idle user yields `True` untouched. -/
def check_user_availability (user_number : String) (st : ApiState) : Bool × ApiState :=
  if agetD st.users_in_process user_number false then
    let idx := agetD st.wait_msg_index user_number 0
    let msg := wait_messages.getD (idx % wait_messages.length) ""
    (false,
      { st with
          notifications := st.notifications ++ [(msg, user_number)],
          wait_msg_index :=
            aset st.wait_msg_index user_number ((idx + 1) % wait_messages.length) })
  else
    (true, st)

/-- Result of `gen_ai_msg`: the optional reply, the API state, and the number
of completion-client invocations made. -/
structure GenOut where
  ai_msg : Option String
  st : ApiState
  calls : Nat
deriving DecidableEq, Repr

/-- `gen_ai_msg`: runs the agent; any escaping exception is caught, the
user's conversation is deleted, the fixed apology/reset notification is
dispatched, and `None` is returned in place of a reply. -/
def gen_ai_msg (tr : ToolRunner) (env : ToolEnv)
    (completions : List (Except String CompletionResult))
    (message : String) (user_number : String) (st : ApiState) : GenOut :=
  let out := Agent.async_process_msg tr env completions message user_number st.chat_memory
  match out.res with
  | Except.ok ai_msg => ⟨some ai_msg, { st with chat_memory := out.cm }, out.calls⟩
  | Except.error _ =>
    ⟨none,
      { st with
          chat_memory := out.cm.delete_chat user_number,
          notifications := st.notifications ++ [(RESET_MSG, user_number)] },
      out.calls⟩

/-- The `ai_msg.rfind("\n", start, end)` step of `send_ai_msg`: position of
the last newline in `s[start:fin]`, if any. -/
def lastNewlinePos (s : List Char) (start fin : Nat) : Option Nat :=
  ((List.range s.length).filter
    (fun i => decide (start ≤ i ∧ i < fin ∧ s.get? i = some '\n'))).getLast?

/-- The splitting loop of `send_ai_msg` for over-limit messages, on the
character list of the reply; fuel bounds the iteration (the Python loop
advances by at least one character per round whenever the limit is
positive). -/
def sendChunks (limit : Nat) (s : List Char) : Nat → Nat → List String
  | 0, _ => []
  | fuel + 1, start =>
    if start < s.length then
      let stop := min (start + limit) s.length
      let stop :=
        if stop < s.length && !(s.get? stop == some '\n') then
          match lastNewlinePos s start stop with
          | some p => if start < p then p else stop
          | none => stop
        else stop
      let chunk := (String.mk ((s.drop start).take (stop - start))).trim
      let next := if s.get? stop == some '\n' then stop + 1 else stop
      chunk :: sendChunks limit s fuel next
    else []

/-- `send_ai_msg`: a reply within the configured limit is sent whole; a
longer reply is split at the limit (preferring newline boundaries) and each
chunk is sent in order. -/
def send_ai_msg (limit : Nat) (ai_msg : String) (user_number : String)
    (st : ApiState) : ApiState :=
  if ai_msg.length ≤ limit then
    { st with notifications := st.notifications ++ [(ai_msg, user_number)] }
  else
    let chunks := sendChunks limit ai_msg.data (ai_msg.data.length + 1) 0
    { st with notifications := st.notifications ++ chunks.map (fun c => (c, user_number)) }

/-- Result of one `whatsapp_reply` invocation (the HTTP body is always an
ok/error status dict and is not modelled beyond control flow). -/
structure ReplyOut where
  st : ApiState
  calls : Nat
deriving DecidableEq, Repr

/-- `whatsapp_reply` from the point where `(user_number, incoming_msg)` has
been extracted: the busy guard answers a busy user immediately (no agent
run); otherwise the busy flag is set, the agent runs, a non-empty reply is
sent (with chunking), and the `finally` block clears the busy flag. -/
def whatsapp_reply (tr : ToolRunner) (env : ToolEnv)
    (completions : List (Except String CompletionResult)) (limit : Nat)
    (user_number : String) (incoming_msg : String) (st : ApiState) : ReplyOut :=
  match check_user_availability user_number st with
  | (false, st) => ⟨st, 0⟩
  | (true, st) =>
    let st := { st with users_in_process := aset st.users_in_process user_number true }
    let gen := gen_ai_msg tr env completions incoming_msg user_number st
    let st :=
      match gen.ai_msg with
      | none => gen.st
      | some ai_msg =>
        if ai_msg.isEmpty then gen.st else send_ai_msg limit ai_msg user_number gen.st
    ⟨{ st with users_in_process := aset st.users_in_process user_number false }, gen.calls⟩

/-! ### Concrete data used by the witnesses and counterexamples -/

/-- A tool runner with the source's default error string. -/
def trW : ToolRunner := {}

/-- The key set of `available_tools` (`src/core/tools/__init__.py`) with
benign oracle behaviour. -/
def envW : ToolEnv :=
  { registry := ["set_user_data", "user_check", "user_register", "fast_user_check"],
    parse_args := fun _ => Except.ok (),
    call_function := fun _ _ _ => Except.ok "listo",
    call_custom := fun _ _ => Except.ok "listo" }

/-- A store holding a freshly initialized conversation for user `u1`. -/
def cmW : ChatMemory := ChatMemory.init_chat { prompt := "P" } "u1"

/-- A plain-message completion output item. -/
def itemHola : OutputItem := { type := "message", content := [{ text := "buenas" }] }

/-- A completion result with a single plain message and no tool calls. -/
def rHola : CompletionResult := { output := [itemHola] }

/-- A function-call request whose name is not in `envW`'s registry. -/
def itemGhost : OutputItem :=
  { type := "function_call", name := "tool_fantasma", arguments := "x", call_id := "call-9" }

/-- A completion result requesting only the unregistered tool. -/
def rGhost : CompletionResult := { output := [itemGhost] }

/-- Three function-call requests with distinct call ids. -/
def tools3 : List OutputItem :=
  [{ type := "function_call", name := "user_check", arguments := "a", call_id := "call-1" },
   { type := "function_call", name := "user_register", arguments := "b", call_id := "call-2" },
   { type := "function_call", name := "fast_user_check", arguments := "c", call_id := "call-3" }]

/-- Outcomes for `tools3` where the middle callable raised. -/
def fut3 : List (Except String String) :=
  [Except.ok "r1", Except.error "boom", Except.ok "r3"]

/-- A store whose history contains a tool-output message recorded in an
earlier round that is structurally equal to the one buffered entry. -/
def cmDup : ChatMemory :=
  { prompt := "P",
    messages := [("u1",
      [Msg.chat "developer" "P", Msg.toolOut "call-1" "salida",
       Msg.chat "assistant" "listo", Msg.toolOut "call-1" "salida"])],
    tool_msgs := [("u1", [Msg.toolOut "call-1" "salida"])] }

/-- An API state in which user `u1` is mid-run (busy flag set). -/
def stBusy : ApiState :=
  { chat_memory := { prompt := "P" }, users_in_process := [("u1", true)] }

/-- An idle API state. -/
def stIdle : ApiState := { chat_memory := { prompt := "P" } }

/-- The head invariant of a stored conversation: the history starts with the
Developer system-prompt message, and the prompt message is not sitting in
the ephemeral tool buffer (true in every reachable state: the buffer only
ever receives raw output items and `function_call_output` messages). -/
def head_inv (cm : ChatMemory) (user_id : String) : Prop :=
  (agetD cm.messages user_id []).head? = some cm.init_msg ∧
  cm.init_msg ∉ agetD cm.tool_msgs user_id []

/-- The Tool Result that the recording walk stores for one `(future, tool)`
pair: the request's own call id, with the fixed generic error string in
place of a raised outcome. -/
def recordedResult (tr : ToolRunner) (future : Except String String)
    (tool : OutputItem) : Msg :=
  Msg.toolOut tool.call_id
    (match future with
     | Except.ok s => s
     | Except.error _ => tr.ERROR_MSG)

/-! ### Association-list lemmas -/

@[simp]
theorem agetD_aset_self {α : Type} (m : List (String × α)) (k : String) (v d : α) :
    agetD (aset m k v) k d = v := by
  induction m with
  | nil => simp [aset, agetD]
  | cons p rest ih =>
    by_cases h : p.1 == k
    · simp [aset, h, agetD]
    · simpa [aset, h, agetD] using ih

@[simp]
theorem alookup_aset_self {α : Type} (m : List (String × α)) (k : String) (v : α) :
    alookup (aset m k v) k = some v := by
  induction m with
  | nil => simp [aset, alookup]
  | cons p rest ih =>
    by_cases h : p.1 == k
    · simp [aset, h, alookup]
    · simpa [aset, h, alookup] using ih

@[simp]
theorem amem_aset_self {α : Type} (m : List (String × α)) (k : String) (v : α) :
    amem (aset m k v) k = true := by
  induction m with
  | nil => simp [aset, amem]
  | cons p rest ih =>
    by_cases h : p.1 == k
    · simp [aset, h, amem]
    · simpa [aset, h, amem] using ih

@[simp]
theorem amem_adel_self {α : Type} (m : List (String × α)) (k : String) :
    amem (adel m k) k = false := by
  induction m with
  | nil => simp [adel, amem]
  | cons p rest ih =>
    by_cases h : p.1 == k
    · simp [adel, h, amem] at ih ⊢
    · simp [adel, h, amem] at ih ⊢

theorem agetD_of_amem_false {α : Type} {m : List (String × α)} {k : String}
    (h : amem m k = false) (d : α) : agetD m k d = d := by
  unfold amem at h
  unfold agetD
  cases hf : m.find? (fun p => p.1 == k) with
  | none => rfl
  | some p => rw [hf] at h; simp at h

/-! ### Basic facts about the store operations -/

theorem has_value_developer : MessageType.has_value "developer" = true := by decide

theorem has_value_user : MessageType.has_value "user" = true := by decide

theorem has_value_assistant : MessageType.has_value "assistant" = true := by decide

/-- `init_chat` always succeeds: the seed message carries a valid role. -/
theorem init_chat_eq (cm : ChatMemory) (u : String) :
    cm.init_chat u = { cm with messages := aset cm.messages u [cm.init_msg] } := by
  have hv : MessageType.has_value "developer" = true := has_value_developer
  simp [ChatMemory.init_chat, ChatMemory.set_messages, firstRoleError, Msg.roleError,
    ChatMemory.init_msg, MessageType.value, hv]

/-- Index-bounded reads of a fixed list return one of its members. -/
theorem getD_mem_of_lt {α : Type} :
    ∀ (l : List α) (i : Nat) (d : α), i < l.length → l.getD i d ∈ l
  | a :: l, 0, _, _ => List.mem_cons_self a l
  | a :: l, i + 1, d, h =>
    List.mem_cons_of_mem a (getD_mem_of_lt l i d (by simpa using h))

/-! ### Claim theorems -/

/-- C7: for every user and every valid role value, `add_msg` succeeds and the
history read through `get` grows by exactly one message; for every invalid
role value it fails (the source signals `InvalidRoleError` by returning
`False`) and the history read through `get` is unchanged. -/
theorem append_role_validation (cm : ChatMemory) (user_id message role : String) :
    (MessageType.has_value role = true →
      (cm.add_msg message role user_id).1 = true ∧
      ((cm.add_msg message role user_id).2.view_messages user_id).length
        = (cm.view_messages user_id).length + 1) ∧
    (MessageType.has_value role = false →
      (cm.add_msg message role user_id).1 = false ∧
      (cm.add_msg message role user_id).2.view_messages user_id
        = cm.view_messages user_id) := by
  cases hm : amem cm.messages user_id with
  | true =>
    constructor
    · intro hv
      simp [ChatMemory.add_msg, hm, hv, ChatMemory.view_messages, ChatMemory.get_messages]
    · intro hv
      simp [ChatMemory.add_msg, hm, hv, ChatMemory.view_messages, ChatMemory.get_messages]
  | false =>
    constructor
    · intro hv
      simp [ChatMemory.add_msg, hm, hv, ChatMemory.view_messages, ChatMemory.get_messages,
        init_chat_eq]
    · intro hv
      simp [ChatMemory.add_msg, hm, hv, ChatMemory.view_messages, ChatMemory.get_messages,
        init_chat_eq]

/-- C7 witness: a valid and an invalid role at concrete inputs. -/
theorem append_role_validation_witness :
    MessageType.has_value "user" = true ∧
    ((cmW.add_msg "hola" "user" "u1").1 = true ∧
      ((cmW.add_msg "hola" "user" "u1").2.view_messages "u1").length
        = (cmW.view_messages "u1").length + 1) ∧
    MessageType.has_value "bogus" = false ∧
    ((cmW.add_msg "hola" "bogus" "u1").1 = false ∧
      (cmW.add_msg "hola" "bogus" "u1").2.view_messages "u1"
        = cmW.view_messages "u1") :=
  ⟨by decide,
   (append_role_validation cmW "u1" "hola" "user").1 (by decide),
   by decide,
   (append_role_validation cmW "u1" "hola" "bogus").2 (by decide)⟩

/-- C5: when the agent run escapes with a completion-client exception,
`gen_ai_msg` returns no reply, the user's conversation is fully absent
afterward (history, tool buffer and last raw result), and the fixed
apology/reset text is dispatched via the notifier. -/
theorem completion_failure_resets_conversation
    (tr : ToolRunner) (env : ToolEnv)
    (completions : List (Except String CompletionResult))
    (message user_number exc : String) (st : ApiState)
    (h : (Agent.async_process_msg tr env completions message user_number st.chat_memory).res
        = Except.error (RunError.completionError exc)) :
    (gen_ai_msg tr env completions message user_number st).ai_msg = none ∧
    amem (gen_ai_msg tr env completions message user_number st).st.chat_memory.messages
      user_number = false ∧
    amem (gen_ai_msg tr env completions message user_number st).st.chat_memory.tool_msgs
      user_number = false ∧
    amem (gen_ai_msg tr env completions message user_number st).st.chat_memory.ai_output
      user_number = false ∧
    (gen_ai_msg tr env completions message user_number st).st.notifications
      = st.notifications ++ [(RESET_MSG, user_number)] := by
  simp only [gen_ai_msg, h]
  simp [ChatMemory.delete_chat]

/-- C5 witness: a client that raises on the first round. -/
theorem completion_failure_resets_conversation_witness :
    (Agent.async_process_msg trW envW [Except.error "boom"] "hola" "u1"
        stIdle.chat_memory).res
      = Except.error (RunError.completionError "boom") ∧
    (gen_ai_msg trW envW [Except.error "boom"] "hola" "u1" stIdle).ai_msg = none ∧
    (gen_ai_msg trW envW [Except.error "boom"] "hola" "u1" stIdle).st.notifications
      = stIdle.notifications ++ [(RESET_MSG, "u1")] :=
  ⟨by decide,
   (completion_failure_resets_conversation trW envW [Except.error "boom"] "hola" "u1"
      "boom" stIdle (by decide)).1,
   (completion_failure_resets_conversation trW envW [Except.error "boom"] "hola" "u1"
      "boom" stIdle (by decide)).2.2.2.2⟩

/-- C6: a second inbound message for a busy user performs zero
completion-client invocations, is answered with the wait template at the
user's current index, and the per-user index advances by one modulo the
template count; the notice sent belongs to the fixed template set. -/
theorem busy_user_gets_wait_notice
    (tr : ToolRunner) (env : ToolEnv)
    (completions : List (Except String CompletionResult)) (limit : Nat)
    (user_number incoming_msg : String) (st : ApiState)
    (hbusy : agetD st.users_in_process user_number false = true) :
    (whatsapp_reply tr env completions limit user_number incoming_msg st).calls = 0 ∧
    (whatsapp_reply tr env completions limit user_number incoming_msg st).st.notifications
      = st.notifications ++
        [(wait_messages.getD (agetD st.wait_msg_index user_number 0 % wait_messages.length) "",
          user_number)] ∧
    agetD (whatsapp_reply tr env completions limit user_number incoming_msg st).st.wait_msg_index
        user_number 0
      = (agetD st.wait_msg_index user_number 0 + 1) % wait_messages.length ∧
    wait_messages.getD (agetD st.wait_msg_index user_number 0 % wait_messages.length) ""
      ∈ wait_messages := by
  refine ⟨?_, ?_, ?_, ?_⟩ <;>
    first
    | exact getD_mem_of_lt wait_messages _ ""
        (Nat.mod_lt _ (by simp [wait_messages]))
    | simp [whatsapp_reply, check_user_availability, hbusy]

/-- C6 witness: a busy user at wait index 4 (the last template), wrapping
back to 0. -/
theorem busy_user_gets_wait_notice_witness :
    agetD stBusy.users_in_process "u1" false = true ∧
    (whatsapp_reply trW envW [Except.ok rHola] 1500 "u1" "hola" stBusy).calls = 0 ∧
    agetD (whatsapp_reply trW envW [Except.ok rHola] 1500 "u1" "hola" stBusy).st.wait_msg_index
        "u1" 0
      = (agetD stBusy.wait_msg_index "u1" 0 + 1) % wait_messages.length :=
  ⟨by decide,
   (busy_user_gets_wait_notice trW envW [Except.ok rHola] 1500 "u1" "hola" stBusy
      (by decide)).1,
   (busy_user_gets_wait_notice trW envW [Except.ok rHola] 1500 "u1" "hola" stBusy
      (by decide)).2.2.1⟩

/-- A non-empty prefix survives appending. -/
theorem head?_append_some {α : Type} {l : List α} {a : α} (h : l.head? = some a)
    (l' : List α) : (l ++ l').head? = some a := by
  cases l with
  | nil => simp at h
  | cons x t => simpa using h

/-- The async task-building loop performs the same lookups, decodes and
submissions as the synchronous one. -/
theorem async_submit_functions_eq (env : ToolEnv) (u : String) :
    ∀ tools, env.async_submit_functions tools u = env.submit_functions tools u := by
  intro tools
  induction tools with
  | nil => rfl
  | cons tool rest ih =>
    simp only [ToolEnv.async_submit_functions, ToolEnv.submit_functions, ih]

/-- The async custom-tool task-building loop matches the synchronous one. -/
theorem async_submit_custom_eq (env : ToolEnv) :
    ∀ tools, env.async_submit_custom tools = env.submit_custom tools := by
  intro tools
  induction tools with
  | nil => rfl
  | cons tool rest ih =>
    simp only [ToolEnv.async_submit_custom, ToolEnv.submit_custom, ih]

/-- A request naming an unregistered tool makes the submission loop raise. -/
theorem submit_functions_error_of_missing (env : ToolEnv) (u : String) :
    ∀ tools : List OutputItem, (∃ t ∈ tools, t.name ∉ env.registry) →
      ∃ e, env.submit_functions tools u = Except.error e := by
  intro tools
  induction tools with
  | nil =>
    rintro ⟨t, ht, -⟩
    cases ht
  | cons tool rest ih =>
    rintro ⟨t, ht, hmiss⟩
    by_cases hreg : tool.name ∈ env.registry
    · cases hp : env.parse_args tool.arguments with
      | error s =>
        exact ⟨PyError.jsonDecodeError s, by simp [ToolEnv.submit_functions, hreg, hp]⟩
      | ok _ =>
        have hrest : ∃ t ∈ rest, t.name ∉ env.registry := by
          rcases List.mem_cons.mp ht with rfl | hmem
          · exact absurd hreg hmiss
          · exact ⟨t, hmem, hmiss⟩
        obtain ⟨e, he⟩ := ih hrest
        exact ⟨e, by simp [ToolEnv.submit_functions, hreg, hp, he]⟩
    · exact ⟨PyError.registryKeyError tool.name, by simp [ToolEnv.submit_functions, hreg]⟩

/-- C3 counterexample: with a request naming a tool absent from the injected
registry, the dispatcher raises a lookup error (the Python `KeyError` from
`rag_functions[function_name]`) before recording anything — no Tool Result
with the fixed generic error string exists — and the same request aborts the
whole orchestration run. -/
theorem missing_tool_name_aborts_counterexample :
    (trW._run_functions envW [itemGhost] "u1" cmW).1
      = some (PyError.registryKeyError "tool_fantasma") ∧
    (trW._run_functions envW [itemGhost] "u1" cmW).2.get_tool_msgs "u1" = [] ∧
    (Agent.process_msg trW envW [Except.ok rGhost] "hola" "u1" cmW).res
      = Except.error (RunError.pyError (PyError.registryKeyError "tool_fantasma")) := by
  decide

/-- C3 as amended: a round containing a request whose tool name is absent
from the registry makes both dispatchers raise, and no Tool Result at all is
recorded for that round (the store is returned untouched); the error
propagates out of the dispatch instead of being replaced by the fixed
generic error string. -/
theorem missing_tool_name_raises_and_records_nothing
    (tr : ToolRunner) (env : ToolEnv) (functions_called : List OutputItem)
    (user_id : String) (cm : ChatMemory)
    (h : ∃ tool ∈ functions_called, tool.name ∉ env.registry) :
    ((tr._run_functions env functions_called user_id cm).1.isSome = true ∧
      (tr._run_functions env functions_called user_id cm).2 = cm) ∧
    ((tr._async_run_functions env functions_called user_id cm).1.isSome = true ∧
      (tr._async_run_functions env functions_called user_id cm).2 = cm) := by
  obtain ⟨e, he⟩ := submit_functions_error_of_missing env user_id functions_called h
  constructor
  · constructor <;> simp [ToolRunner._run_functions, he]
  · constructor <;>
      simp [ToolRunner._async_run_functions, async_submit_functions_eq, he]

/-- C3 witness for the amended claim, at the concrete unregistered request. -/
theorem missing_tool_name_witness :
    (∃ tool ∈ [itemGhost], tool.name ∉ envW.registry) ∧
    (trW._run_functions envW [itemGhost] "u1" cmW).1.isSome = true ∧
    (trW._run_functions envW [itemGhost] "u1" cmW).2 = cmW :=
  ⟨by decide,
   (missing_tool_name_raises_and_records_nothing trW envW [itemGhost] "u1" cmW
      (by decide)).1.1,
   (missing_tool_name_raises_and_records_nothing trW envW [itemGhost] "u1" cmW
      (by decide)).1.2⟩

/-- C4 counterexample: `recordCompletion` on a result whose single output
item is a plain message (not ToolOutput-shaped) still appends that item to
the Ephemeral Tool Buffer. -/
theorem record_completion_buffers_plain_message_counterexample :
    (cmW._set_ai_output rHola "u1").get_tool_msgs "u1" = [Msg.item itemHola] ∧
    itemHola.type = "message" ∧
    ¬ itemHola.type = "function_call_output" := by
  decide

/-- C4 as amended: `recordCompletion` always stores the raw result as the
user's last completion; when the user has a conversation it appends all of
the result's output items to the persisted history and appends all of them
— not only ToolOutput-shaped ones — to the Ephemeral Tool Buffer; when the
user has no conversation, history and buffer are left untouched. -/
theorem record_completion_buffers_all_items (cm : ChatMemory) (user_id : String)
    (r : CompletionResult) :
    alookup (cm._set_ai_output r user_id).ai_output user_id = some r ∧
    (amem cm.messages user_id = true →
      agetD (cm._set_ai_output r user_id).messages user_id []
        = agetD cm.messages user_id [] ++ r.output.map Msg.item ∧
      (cm._set_ai_output r user_id).get_tool_msgs user_id
        = cm.get_tool_msgs user_id ++ r.output.map Msg.item) ∧
    (amem cm.messages user_id = false →
      (cm._set_ai_output r user_id).messages = cm.messages ∧
      (cm._set_ai_output r user_id).tool_msgs = cm.tool_msgs) := by
  refine ⟨?_, fun hm => ?_, fun hm => ?_⟩
  · cases hm : amem cm.messages user_id <;>
      simp [ChatMemory._set_ai_output, hm]
  · simp [ChatMemory._set_ai_output, hm, ChatMemory.get_tool_msgs]
  · simp [ChatMemory._set_ai_output, hm]

/-- C4 witness for the amended claim, at a concrete plain-message result. -/
theorem record_completion_buffers_all_items_witness :
    amem cmW.messages "u1" = true ∧
    alookup (cmW._set_ai_output rHola "u1").ai_output "u1" = some rHola ∧
    (cmW._set_ai_output rHola "u1").get_tool_msgs "u1"
      = cmW.get_tool_msgs "u1" ++ rHola.output.map Msg.item :=
  ⟨by decide,
   (record_completion_buffers_all_items cmW "u1" rHola).1,
   ((record_completion_buffers_all_items cmW "u1" rHola).2.1 (by decide)).2⟩

/-- A head surviving the purge filter stays the head. -/
theorem head?_filter_of_head {l : List Msg} {a : Msg} {buf : List Msg}
    (h : l.head? = some a) (ha : a ∉ buf) :
    (l.filter (fun m => !decide (m ∈ buf))).head? = some a := by
  cases l with
  | nil => simp at h
  | cons x t =>
    have hx : x = a := by simpa using h
    subst hx
    simp [List.filter_cons, ha]

/-- Purging with an empty buffer is a no-op (for a stored user). -/
theorem purge_of_empty_buf (cm : ChatMemory) (u : String)
    (hm : amem cm.messages u = true) (hbuf : agetD cm.tool_msgs u [] = []) :
    cm._purge_tool_msgs u = (none, cm) := by
  simp [ChatMemory._purge_tool_msgs, ChatMemory.get_tool_msgs, ChatMemory.get_messages,
    hm, hbuf]

/-- Purging when the filtered history validates: the history is replaced by
the filtered sequence and the buffer is cleared. -/
theorem purge_of_valid (cm : ChatMemory) (u : String)
    (hm : amem cm.messages u = true) (hbuf : ¬ agetD cm.tool_msgs u [] = [])
    (herr : firstRoleError ((agetD cm.messages u []).filter
        (fun m => !decide (m ∈ agetD cm.tool_msgs u []))) = none) :
    cm._purge_tool_msgs u =
      (none,
        { cm with
            messages := aset cm.messages u
              ((agetD cm.messages u []).filter
                (fun m => !decide (m ∈ agetD cm.tool_msgs u []))),
            tool_msgs := aset cm.tool_msgs u [] }) := by
  simp [ChatMemory._purge_tool_msgs, ChatMemory.get_tool_msgs, ChatMemory.get_messages,
    ChatMemory.set_messages, ChatMemory._clean_tool_msgs, hm, hbuf, herr]

/-- Purging when the filtered history fails validation: the history is left
unchanged, the buffer is still cleared (the `finally` block). -/
theorem purge_of_invalid (cm : ChatMemory) (u : String)
    (hm : amem cm.messages u = true) (hbuf : ¬ agetD cm.tool_msgs u [] = [])
    (e : PyError)
    (herr : firstRoleError ((agetD cm.messages u []).filter
        (fun m => !decide (m ∈ agetD cm.tool_msgs u []))) = some e) :
    (cm._purge_tool_msgs u).2 = cm._clean_tool_msgs u := by
  cases e <;>
    simp [ChatMemory._purge_tool_msgs, ChatMemory.get_tool_msgs, ChatMemory.get_messages,
      ChatMemory.set_messages, ChatMemory._clean_tool_msgs, hm, hbuf, herr]

/-- C8 counterexample: `set_messages` (the store\'s `replace`, a store
operation other than whole-conversation deletion) accepts a replacement
history with no Developer head, after which the first message is no longer
the system prompt. -/
theorem replace_can_remove_system_prompt_counterexample :
    (agetD cmW.messages "u1" []).head? = some cmW.init_msg ∧
    (cmW.set_messages [Msg.chat "user" "hola"] "u1").toOption.map
        (fun cm2 => (agetD cm2.messages "u1" []).head?)
      = some (some (Msg.chat "user" "hola")) ∧
    ¬ Msg.chat "user" "hola" = cmW.init_msg := by
  decide

/-- C8 as amended: for a user whose history starts with the Developer
system-prompt message (and whose tool buffer does not hold that prompt
message, as in every reachable state), the operations `add_msg`,
`recordCompletion` (`_set_ai_output`), tool-result recording
(`_set_tool_output`) and the purge all preserve that the first message is
the system prompt; only whole-history replacement (`set_messages`) or
whole-conversation deletion can remove it. -/
theorem system_prompt_head_preserved (cm : ChatMemory) (user_id : String)
    (h : head_inv cm user_id) :
    (∀ message role, head_inv (cm.add_msg message role user_id).2 user_id) ∧
    (∀ r, head_inv (cm._set_ai_output r user_id) user_id) ∧
    (∀ call_id out, head_inv (cm._set_tool_output call_id out user_id) user_id) ∧
    head_inv (cm._purge_tool_msgs user_id).2 user_id := by
  obtain ⟨hh, hb⟩ := h
  have hm : amem cm.messages user_id = true := by
    cases hmem : amem cm.messages user_id
    · rw [agetD_of_amem_false hmem] at hh
      simp at hh
    · rfl
  refine ⟨?_, ?_, ?_, ?_⟩
  · intro message role
    by_cases hv : MessageType.has_value role = true
    · refine ⟨?_, ?_⟩
      · simpa [ChatMemory.add_msg, hm, hv, ChatMemory.init_msg] using
          head?_append_some hh [Msg.chat role message]
      · simpa [ChatMemory.add_msg, hm, hv, ChatMemory.init_msg] using hb
    · rw [Bool.not_eq_true] at hv
      exact ⟨by simpa [ChatMemory.add_msg, hm, hv] using hh,
             by simpa [ChatMemory.add_msg, hm, hv] using hb⟩
  · intro r
    refine ⟨?_, ?_⟩
    · simpa [ChatMemory._set_ai_output, hm, ChatMemory.init_msg] using
        head?_append_some hh (r.output.map Msg.item)
    · simp only [ChatMemory._set_ai_output, hm]
      simp only [ChatMemory.init_msg] at hb ⊢
      simp [List.mem_append]
      simpa using hb
  · intro call_id out
    refine ⟨?_, ?_⟩
    · simpa [ChatMemory._set_tool_output, hm, ChatMemory.init_msg] using
        head?_append_some hh [Msg.toolOut call_id out]
    · simp only [ChatMemory._set_tool_output, hm]
      simp only [ChatMemory.init_msg] at hb ⊢
      simp [List.mem_append]
      simpa using hb
  · by_cases hbuf : agetD cm.tool_msgs user_id [] = []
    · rw [purge_of_empty_buf cm user_id hm hbuf]
      exact ⟨hh, hb⟩
    · cases herr : firstRoleError ((agetD cm.messages user_id []).filter
          (fun m => !decide (m ∈ agetD cm.tool_msgs user_id []))) with
      | none =>
        rw [purge_of_valid cm user_id hm hbuf herr]
        refine ⟨?_, ?_⟩
        · simpa [ChatMemory.init_msg] using head?_filter_of_head hh hb
        · simp [ChatMemory.init_msg]
      | some e =>
        have h2 := purge_of_invalid cm user_id hm hbuf e herr
        rw [h2]
        refine ⟨?_, ?_⟩
        · simpa [ChatMemory._clean_tool_msgs, ChatMemory.init_msg] using hh
        · simp [ChatMemory._clean_tool_msgs, ChatMemory.init_msg]

/-- C8 witness for the amended claim: the invariant holds of the fresh store
and is preserved at a concrete append and a concrete purge. -/
theorem system_prompt_head_preserved_witness :
    head_inv cmW "u1" ∧
    head_inv (cmW.add_msg "hola" "user" "u1").2 "u1" ∧
    head_inv (cmW._purge_tool_msgs "u1").2 "u1" :=
  ⟨by unfold head_inv; decide,
   (system_prompt_head_preserved cmW "u1" (by unfold head_inv; decide)).1 "hola" "user",
   (system_prompt_head_preserved cmW "u1" (by unfold head_inv; decide)).2.2.2⟩

/-- `_set_tool_output` on a stored user appends the Tool Result message to
both the buffer and the history. -/
theorem set_tool_output_of_mem (cm : ChatMemory) (call_id out user_id : String)
    (hm : amem cm.messages user_id = true) :
    cm._set_tool_output call_id out user_id =
      { cm with
          tool_msgs := aset cm.tool_msgs user_id
            (agetD cm.tool_msgs user_id [] ++ [Msg.toolOut call_id out]),
          messages := aset cm.messages user_id
            (agetD cm.messages user_id [] ++ [Msg.toolOut call_id out]) } := by
  simp [ChatMemory._set_tool_output, hm]

/-- The recording walk of `run_futures` keeps the user stored and appends,
to both the buffer and the history, exactly one Tool Result per zipped
`(future, tool)` pair, tagged with the request's own call id. -/
theorem run_futures_records (tr : ToolRunner) (user_id : String) :
    ∀ (futures : List (Except String String)) (tools_called : List OutputItem)
      (cm : ChatMemory), amem cm.messages user_id = true →
      amem (tr.run_futures futures tools_called user_id cm).messages user_id = true ∧
      agetD (tr.run_futures futures tools_called user_id cm).tool_msgs user_id []
        = agetD cm.tool_msgs user_id []
          ++ (futures.zip tools_called).map (fun p => recordedResult tr p.1 p.2) ∧
      agetD (tr.run_futures futures tools_called user_id cm).messages user_id []
        = agetD cm.messages user_id []
          ++ (futures.zip tools_called).map (fun p => recordedResult tr p.1 p.2) := by
  intro futures
  induction futures with
  | nil =>
    intro tools cm hm
    cases tools <;> simp [ToolRunner.run_futures, hm]
  | cons f fs ih =>
    intro tools cm hm
    cases tools with
    | nil => simp [ToolRunner.run_futures, hm]
    | cons t ts =>
      cases f with
      | ok s =>
        have hstep := set_tool_output_of_mem cm t.call_id s user_id hm
        have hm1 : amem (cm._set_tool_output t.call_id s user_id).messages user_id
            = true := by
          rw [hstep]
          simp
        obtain ⟨ha, hbuf2, hmsgs2⟩ := ih ts (cm._set_tool_output t.call_id s user_id) hm1
        have hcons : tr.run_futures (Except.ok s :: fs) (t :: ts) user_id cm
            = tr.run_futures fs ts user_id (cm._set_tool_output t.call_id s user_id) := rfl
        refine ⟨?_, ?_, ?_⟩
        · rw [hcons]
          exact ha
        · rw [hcons, hbuf2, hstep]
          simp [recordedResult]
        · rw [hcons, hmsgs2, hstep]
          simp [recordedResult]
      | error e =>
        have hstep := set_tool_output_of_mem cm t.call_id tr.ERROR_MSG user_id hm
        have hm1 : amem (cm._set_tool_output t.call_id tr.ERROR_MSG user_id).messages
            user_id = true := by
          rw [hstep]
          simp
        obtain ⟨ha, hbuf2, hmsgs2⟩ :=
          ih ts (cm._set_tool_output t.call_id tr.ERROR_MSG user_id) hm1
        have hcons : tr.run_futures (Except.error e :: fs) (t :: ts) user_id cm
            = tr.run_futures fs ts user_id
                (cm._set_tool_output t.call_id tr.ERROR_MSG user_id) := rfl
        refine ⟨?_, ?_, ?_⟩
        · rw [hcons]
          exact ha
        · rw [hcons, hbuf2, hstep]
          simp [recordedResult]
        · rw [hcons, hmsgs2, hstep]
          simp [recordedResult]

/-- The recording walks of the two execution paths coincide: `run_coroutines`
zips `(tool, result)` where `run_futures` zips `(future, tool)`, recording
the same Tool Results in the same order. -/
theorem run_coroutines_eq_run_futures (tr : ToolRunner) (user_id : String) :
    ∀ (tools_called : List OutputItem) (results : List (Except String String))
      (cm : ChatMemory),
      tr.run_coroutines tools_called results user_id cm
        = tr.run_futures results tools_called user_id cm := by
  intro tools
  induction tools with
  | nil =>
    intro rs cm
    cases rs <;> simp [ToolRunner.run_coroutines, ToolRunner.run_futures]
  | cons t ts ih =>
    intro rs cm
    cases rs with
    | nil => simp [ToolRunner.run_coroutines, ToolRunner.run_futures]
    | cons f fs =>
      simp only [ToolRunner.run_coroutines, ToolRunner.run_futures]
      exact ih fs _

/-- C2: for every round, the dispatcher records exactly one Tool Result per
request — in request order, one `function_call_output` message per zipped
pair, each carrying its originating request's call id (with the fixed error
string replacing a raised outcome) — and the coroutine-based recording walk
records exactly the same results. -/
theorem dispatcher_records_one_result_per_request
    (tr : ToolRunner) (futures : List (Except String String))
    (tools_called : List OutputItem) (user_id : String) (cm : ChatMemory)
    (hm : amem cm.messages user_id = true)
    (hl : futures.length = tools_called.length) :
    (tr.run_futures futures tools_called user_id cm).get_tool_msgs user_id
      = cm.get_tool_msgs user_id
        ++ (futures.zip tools_called).map (fun p => recordedResult tr p.1 p.2) ∧
    ((futures.zip tools_called).map (fun p => recordedResult tr p.1 p.2)).length
      = tools_called.length ∧
    tr.run_coroutines tools_called futures user_id cm
      = tr.run_futures futures tools_called user_id cm := by
  refine ⟨?_, ?_, run_coroutines_eq_run_futures tr user_id tools_called futures cm⟩
  · simpa [ChatMemory.get_tool_msgs] using
      (run_futures_records tr user_id futures tools_called cm hm).2.1
  · simp [hl]

/-- C2 witness: three requests, the middle callable raising — all three call
ids are preserved in order, the failing one's output is the fixed error
string, the sibling results are untouched. -/
theorem dispatcher_three_requests_one_raises_witness :
    amem cmW.messages "u1" = true ∧
    fut3.length = tools3.length ∧
    (trW.run_futures fut3 tools3 "u1" cmW).get_tool_msgs "u1"
      = cmW.get_tool_msgs "u1"
        ++ (fut3.zip tools3).map (fun p => recordedResult trW p.1 p.2) ∧
    (trW.run_futures fut3 tools3 "u1" cmW).get_tool_msgs "u1"
      = [Msg.toolOut "call-1" "r1", Msg.toolOut "call-2" trW.ERROR_MSG,
         Msg.toolOut "call-3" "r3"] :=
  ⟨by decide, by decide,
   (dispatcher_records_one_result_per_request trW fut3 tools3 "u1" cmW
      (by decide) (by decide)).1,
   by decide⟩

/-- C10: the purge removes from the persisted history every message that is
structurally equal (by value) to some message of the Ephemeral Tool Buffer —
all occurrences, not only the ones the buffer recorded — and then clears the
buffer. -/
theorem purge_removes_by_structural_equality (cm : ChatMemory) (user_id : String)
    (hm : amem cm.messages user_id = true)
    (hbuf : ¬ cm.get_tool_msgs user_id = [])
    (hok : firstRoleError ((agetD cm.messages user_id []).filter
        (fun m => !decide (m ∈ agetD cm.tool_msgs user_id []))) = none) :
    (cm._purge_tool_msgs user_id).1 = none ∧
    agetD (cm._purge_tool_msgs user_id).2.messages user_id []
      = (agetD cm.messages user_id []).filter
          (fun m => !decide (m ∈ agetD cm.tool_msgs user_id [])) ∧
    agetD (cm._purge_tool_msgs user_id).2.tool_msgs user_id [] = [] ∧
    (∀ m ∈ agetD cm.messages user_id [], m ∈ cm.get_tool_msgs user_id →
      ¬ m ∈ agetD (cm._purge_tool_msgs user_id).2.messages user_id []) := by
  have hb' : ¬ agetD cm.tool_msgs user_id [] = [] := by
    simpa [ChatMemory.get_tool_msgs] using hbuf
  rw [purge_of_valid cm user_id hm hb' hok]
  refine ⟨rfl, by simp, by simp, ?_⟩
  intro m _ hbufmem
  simp only [ChatMemory.get_tool_msgs] at hbufmem
  simp [List.mem_filter, hbufmem]

/-- C10 witness: a history message recorded in an earlier round that is
value-equal to the one buffered tool output is purged together with it. -/
theorem purge_removes_duplicate_witness :
    ¬ cmDup.get_tool_msgs "u1" = [] ∧
    (cmDup._purge_tool_msgs "u1").1 = none ∧
    agetD (cmDup._purge_tool_msgs "u1").2.messages "u1" []
      = [Msg.chat "developer" "P", Msg.chat "assistant" "listo"] :=
  ⟨by decide,
   (purge_removes_by_structural_equality cmDup "u1" (by decide) (by decide)
      (by decide)).1,
   ((purge_removes_by_structural_equality cmDup "u1" (by decide) (by decide)
      (by decide)).2.1).trans (by decide)⟩

/-- `add_msg` leaves the stored raw completions untouched. -/
theorem add_msg_ai_output (cm : ChatMemory) (m role u : String) :
    ((cm.add_msg m role u).2).ai_output = cm.ai_output := by
  cases hm : amem cm.messages u <;> by_cases hv : MessageType.has_value role = true <;>
    simp [ChatMemory.add_msg, hm, hv, init_chat_eq]

/-- After `add_msg` the user has a stored history. -/
theorem add_msg_mem (cm : ChatMemory) (m role u : String) :
    amem ((cm.add_msg m role u).2).messages u = true := by
  cases hm : amem cm.messages u <;> by_cases hv : MessageType.has_value role = true <;>
    simp [ChatMemory.add_msg, hm, hv, init_chat_eq]

/-- `recordCompletion` always stores the raw result under the user's key. -/
theorem set_ai_output_ai (cm : ChatMemory) (r : CompletionResult) (u : String) :
    ((cm._set_ai_output r u)).ai_output = aset cm.ai_output u r := by
  cases hm : amem cm.messages u <;> simp [ChatMemory._set_ai_output, hm]

/-- `recordCompletion` keeps a stored user stored. -/
theorem set_ai_output_mem (cm : ChatMemory) (r : CompletionResult) (u : String)
    (hm : amem cm.messages u = true) :
    amem ((cm._set_ai_output r u)).messages u = true := by
  simp [ChatMemory._set_ai_output, hm]

/-- The store handed back by `get_messages` has the same raw completions. -/
theorem get_messages_ai_output (cm : ChatMemory) (u : String) (b : Bool) :
    ((cm.get_messages u b).2).ai_output = cm.ai_output := by
  cases hm : amem cm.messages u <;> simp [ChatMemory.get_messages, hm, init_chat_eq]

/-- The purge never touches the stored raw completions (for a stored user). -/
theorem purge_ai_output_of_mem (cm : ChatMemory) (u : String)
    (hm : amem cm.messages u = true) :
    ((cm._purge_tool_msgs u).2).ai_output = cm.ai_output := by
  by_cases hbuf : agetD cm.tool_msgs u [] = []
  · rw [purge_of_empty_buf cm u hm hbuf]
  · cases herr : firstRoleError ((agetD cm.messages u []).filter
        (fun m => !decide (m ∈ agetD cm.tool_msgs u []))) with
    | none => rw [purge_of_valid cm u hm hbuf herr]
    | some e =>
      rw [purge_of_invalid cm u hm hbuf e herr, ChatMemory._clean_tool_msgs]

/-- With no `"message"` item at all, the extraction falls back to the fixed
string. -/
theorem firstMessageText_of_no_message :
    ∀ l : List OutputItem, (∀ item ∈ l, ¬ item.type = "message") →
      firstMessageText l = "No Answer"
  | [], _ => rfl
  | item :: rest, h => by
    have hit : ¬ item.type = "message" := h item (List.mem_cons_self item rest)
    have hrest := firstMessageText_of_no_message rest
      (fun j hj => h j (List.mem_cons_of_mem item hj))
    simp [firstMessageText, hit, hrest]

/-- C1: a completion result with zero function-call items and zero
custom-tool-call items makes the loop break out of its very first round
(exactly one completion-client invocation; any remaining oracle rounds are
never consumed), and the reply is the extraction of that last completion's
output — the text of the first plain-message item, the fixed fallback when
none is found. -/
theorem no_tool_calls_finishes_with_first_message_text
    (tr : ToolRunner) (env : ToolEnv) (rest : List (Except String CompletionResult))
    (cm : ChatMemory) (user_id message : String) (r : CompletionResult)
    (hf : r.output.filter (fun item => item.type == MessageType.function_call.value) = [])
    (hc : r.output.filter (fun item => item.type == MessageType.custom_tool_call.value) = [])
    (hp : ((((cm.add_msg message MessageType.user.value user_id).2)._set_ai_output r
        user_id)._purge_tool_msgs user_id).1 = none) :
    (Agent.process_msg tr env (Except.ok r :: rest) message user_id cm).res
      = Except.ok (firstMessageText r.output) ∧
    (Agent.process_msg tr env (Except.ok r :: rest) message user_id cm).calls = 1 ∧
    ((∀ item ∈ r.output, ¬ item.type = "message") →
      firstMessageText r.output = "No Answer") := by
  have hmX : amem (((cm.add_msg message MessageType.user.value user_id).2)._set_ai_output
      r user_id).messages user_id = true :=
    set_ai_output_mem _ r user_id (add_msg_mem cm message MessageType.user.value user_id)
  have hrun : Agent.process_msg tr env (Except.ok r :: rest) message user_id cm
      = Agent.finish_run user_id
          (((cm.add_msg message MessageType.user.value user_id).2)._set_ai_output r user_id)
          1 := by
    simp only [Agent.process_msg, Agent.run_rounds]
    rw [hf, hc]
    simp
  rcases hpur : (((cm.add_msg message MessageType.user.value user_id).2)._set_ai_output r
      user_id)._purge_tool_msgs user_id with ⟨e?, cm3⟩
  rw [hpur] at hp
  simp only at hp
  subst hp
  have haio : cm3.ai_output
      = (((cm.add_msg message MessageType.user.value user_id).2)._set_ai_output r
          user_id).ai_output := by
    have h2 := purge_ai_output_of_mem _ user_id hmX
    rw [hpur] at h2
    exact h2
  have hget : cm3.get_ai_output user_id = r.output := by
    rw [ChatMemory.get_ai_output, haio, set_ai_output_ai, alookup_aset_self]
  rw [hrun]
  unfold Agent.finish_run
  rw [hpur]
  refine ⟨?_, rfl, fun h => firstMessageText_of_no_message r.output h⟩
  simp [ChatMemory._get_ai_msg, hget]

/-- C1 witness: one plain-message completion with no tool calls. -/
theorem no_tool_calls_finishes_witness :
    rHola.output.filter (fun item => item.type == MessageType.function_call.value) = [] ∧
    (Agent.process_msg trW envW [Except.ok rHola] "hola" "u1" cmW).res
      = Except.ok (firstMessageText rHola.output) ∧
    firstMessageText rHola.output = "buenas" :=
  ⟨by decide,
   (no_tool_calls_finishes_with_first_message_text trW envW [] cmW "u1" "hola" rHola
      (by decide) (by decide) (by decide)).1,
   by decide⟩

/-- The per-round function dispatch of the two paths agrees: same lookups,
same decodes, same recorded results. -/
theorem async_run_functions_eq (tr : ToolRunner) (env : ToolEnv)
    (functions_called : List OutputItem) (u : String) (cm : ChatMemory) :
    tr._async_run_functions env functions_called u cm
      = tr._run_functions env functions_called u cm := by
  unfold ToolRunner._async_run_functions ToolRunner._run_functions
  rw [async_submit_functions_eq]
  cases env.submit_functions functions_called u with
  | error e => rfl
  | ok futures => simp [run_coroutines_eq_run_futures]

/-- The per-round custom-tool dispatch of the two paths agrees. -/
theorem async_run_custom_eq (tr : ToolRunner) (env : ToolEnv)
    (custom_tools_called : List OutputItem) (u : String) (cm : ChatMemory) :
    tr._async_run_custom_tools env custom_tools_called u cm
      = tr._run_custom_tools env custom_tools_called u cm := by
  unfold ToolRunner._async_run_custom_tools ToolRunner._run_custom_tools
  rw [async_submit_custom_eq]
  cases env.submit_custom custom_tools_called with
  | error e => rfl
  | ok results => simp [run_coroutines_eq_run_futures]

/-- The post-loop epilogues of the two paths are the same code. -/
theorem async_finish_run_eq (u : String) (cm : ChatMemory) (calls : Nat) :
    Agent.async_finish_run u cm calls = Agent.finish_run u cm calls := rfl

/-- Round for round, the cooperative loop computes exactly what the blocking
loop computes. -/
theorem async_run_rounds_eq (tr : ToolRunner) (env : ToolEnv) (u : String) :
    ∀ (completions : List (Except String CompletionResult)) (cm : ChatMemory)
      (calls : Nat),
      Agent.async_run_rounds tr env u completions cm calls
        = Agent.run_rounds tr env u completions cm calls := by
  intro completions
  induction completions with
  | nil => intro cm calls; rfl
  | cons c rest ih =>
    intro cm calls
    cases c with
    | error exc => rfl
    | ok ai_output =>
      simp only [Agent.async_run_rounds, Agent.run_rounds, async_run_functions_eq,
        async_run_custom_eq, async_finish_run_eq]
      by_cases hb : ((ai_output.output.filter
            (fun item => item.type == MessageType.function_call.value)).isEmpty
          && (ai_output.output.filter
            (fun item => item.type == MessageType.custom_tool_call.value)).isEmpty) = true
      · rw [if_pos hb, if_pos hb]
      · rw [if_neg hb, if_neg hb]
        rcases h1 : (if (ai_output.output.filter
              (fun item => item.type == MessageType.function_call.value)).isEmpty
            then (none, cm._set_ai_output ai_output u)
            else tr._run_functions env (ai_output.output.filter
              (fun item => item.type == MessageType.function_call.value)) u
              (cm._set_ai_output ai_output u)) with ⟨e1, cm2⟩
        rw [h1]
        cases e1 with
        | some e => rfl
        | none =>
          dsimp only
          rcases h2 : (if (ai_output.output.filter
                (fun item => item.type == MessageType.custom_tool_call.value)).isEmpty
              then (none, cm2)
              else tr._run_custom_tools env (ai_output.output.filter
                (fun item => item.type == MessageType.custom_tool_call.value)) u cm2)
            with ⟨e2, cm3⟩
          rw [h2]
          cases e2 with
          | some e => rfl
          | none => exact ih cm3 (calls + 1)

/-- C9: the blocking and the cooperative execution paths return the same
reply, leave the same conversation store, and make the same number of
completion-client invocations, for every oracle, message, user and starting
store. -/
theorem sync_and_async_runs_agree (tr : ToolRunner) (env : ToolEnv)
    (completions : List (Except String CompletionResult))
    (message user_id : String) (cm : ChatMemory) :
    Agent.process_msg tr env completions message user_id cm
      = Agent.async_process_msg tr env completions message user_id cm := by
  unfold Agent.process_msg Agent.async_process_msg
  exact (async_run_rounds_eq tr env user_id completions _ 0).symm
